import Mathlib

/-!
# Verification of the expipe metrics-shipping pipeline

Shallow embedding of the expipe repository (Go) in Lean 4, together with
proofs about the embedded functions.  Durations are modelled as natural
numbers of nanoseconds (Go `time.Duration` is an integer nanosecond count);
Go `int` fields that the program only compares and increments are modelled
as `Int`.  Effects of the outside world (HTTP calls, JSON validity checks,
duration parsing, URL sanitisation) are passed in as explicit outcome
parameters, so every function is a pure rendering of the corresponding Go
function's control flow.
-/

/-- One second in nanoseconds, as in Go's `time.Second`. -/
def second : Nat := 1000000000

/-- Outcome of an HTTP GET issued by `SimpleRecorder.Record`
(`http.Get(s.endpoint)` in `recorder/testing`): the call can succeed, fail
with a `*url.Error` whose text contains `getsockopt: connection refused`,
fail with another `*url.Error`, or fail with a non-URL error. -/
inductive GetOutcome where
  | ok
  | connRefused
  | otherURLError
  | otherErr
deriving DecidableEq, Repr

/-- Error values surfaced by readers and recorders.  The package-level
variables `reader.ErrBackoffExceeded` and `recorder.ErrBackoffExceeded`
are referenced by the sources but their defining file is not part of the
repository snapshot; following the specification's single `BackoffExceeded`
taxonomy entry they are modelled as the one value `backoffExceeded`. -/
inductive Err where
  | backoffExceeded
  | pingNotCalled
  | invalidJSON
  | endpointNotAvailable (endpoint : String)
  | lowBackoffValue (b : Int)
  | invalidEndpoint (endpoint : String)
  | emptyName
  | emptyEndpoint
  | parseTimeout
  | transport (oc : GetOutcome)
  | readBuffer
deriving DecidableEq, Repr

/-- `recorder/testing.SimpleRecorder`.  The Go struct also carries a logger
and a mutex, which have no functional effect; the optional `RecordFunc`
test hook (a function field) is modelled by the outcome it would return,
`none` meaning the hook is not installed (`RecordFunc == nil`). -/
structure SimpleRecorder where
  name : String
  endpoint : String
  indexName : String
  timeout : Nat
  backoff : Int
  strike : Int
  recordFuncResult : Option (Option Err)
deriving DecidableEq, Repr

/-- `recorder/testing.NewSimpleRecorder`.  `lib.SanitiseURL` is external to
the snapshot; its outcome is the parameter `sanitised` (`none` = error). -/
def NewSimpleRecorder (name endpoint indexName : String) (timeout : Nat)
    (backoff : Int) (sanitised : Option String) : Except Err SimpleRecorder :=
  if backoff < 5 then .error (.lowBackoffValue backoff)
  else
    match sanitised with
    | none => .error (.invalidEndpoint endpoint)
    | some url =>
        .ok { name := name, endpoint := url, indexName := indexName,
              timeout := timeout, backoff := backoff, strike := 0,
              recordFuncResult := none }

/-- `recorder/testing.SimpleRecorder.Record`.  Returns the error (or
`none` for success) paired with the recorder state after the call; `oc` is
the outcome of the `http.Get` transport call. -/
def SimpleRecorder.record (s : SimpleRecorder) (oc : GetOutcome) :
    Option Err × SimpleRecorder :=
  match s.recordFuncResult with
  | some r => (r, s)
  | none =>
    if s.strike > s.backoff then (some .backoffExceeded, s)
    else
      match oc with
      | .ok => (none, s)
      | .connRefused =>
          (some (.transport .connRefused), { s with strike := s.strike + 1 })
      | .otherURLError => (some (.transport .otherURLError), s)
      | .otherErr => (some (.transport .otherErr), s)

/-- `recorder/elasticsearch.Config` as built by `FromViper` (the fields the
claims touch). -/
structure ESConfig where
  name : String
  endpoint : String
  timeout : Nat
  backoff : Int
  indexName : String
deriving DecidableEq, Repr

/-- `recorder/elasticsearch.FromViper`.  `timeoutParsed` is the outcome of
`time.ParseDuration(c.Timeout_)` and `sanitised` the outcome of
`lib.SanitiseURL(c.Endpoint_)`, both external calls.  The Go code rejects
the configuration when `c.Backoff_ <= 5`, with the message
`back off should be at least 5`; the error is modelled as
`lowBackoffValue` since its text coincides with
`recorder.ErrLowBackoffValue`. -/
def FromViper (name : String) (timeoutParsed : Option Nat) (backoff : Int)
    (endpoint : String) (indexName : String) (sanitised : Option String) :
    Except Err ESConfig :=
  match timeoutParsed with
  | none => .error .parseTimeout
  | some tmo =>
    if backoff ≤ 5 then .error (.lowBackoffValue backoff)
    else if endpoint = "" then .error .emptyEndpoint
    else
      match sanitised with
      | none => .error (.invalidEndpoint endpoint)
      | some url =>
          .ok { name := name, endpoint := url, timeout := tmo,
                backoff := backoff, indexName := indexName }

/-- Result of a read, `reader.Result` (the `Time` and `Mapper` fields are
wall clock and a mapper reference; the job id is the token's 16-byte
random identifier, modelled as a `Nat`). -/
structure ReaderResult where
  id : Nat
  content : String
  typeName : String
deriving DecidableEq, Repr

/-- Outcome of the `ctxhttp.Head` call made by `Ping`. -/
inductive PingOutcome where
  | ok
  | unavailable
deriving DecidableEq, Repr

/-- Outcome of the `ctxhttp.Get` plus body read performed by
`expvar.Reader.Read`: a body was fetched, the GET failed with a
`*url.Error`, the GET failed with another error, or reading the response
body failed. -/
inductive FetchOutcome where
  | body (s : String)
  | urlError
  | otherError
  | readBodyError
deriving DecidableEq, Repr

/-- `reader/expvar.Reader` (logger and mapper omitted: they carry no
functional state for the verified properties). -/
structure ExpvarReader where
  name : String
  endpoint : String
  typeName : String
  interval : Nat
  timeout : Nat
  pinged : Bool
deriving DecidableEq, Repr

/-- `reader/expvar.New` with the option functions already applied: the
arguments are the field values the options have set (`""`/`0` meaning the
option was not given, which is what the zero-valued Go struct holds). -/
def ExpvarReader.new (name endpoint typeName : String)
    (interval timeout : Nat) : Except Err ExpvarReader :=
  if name = "" then .error .emptyName
  else if endpoint = "" then .error .emptyEndpoint
  else
    .ok { name := name, endpoint := endpoint,
          typeName := if typeName = "" then name else typeName,
          interval := if interval = 0 then second else interval,
          timeout := if timeout = 0 then 5 * second else timeout,
          pinged := false }

/-- `reader/expvar.Reader.Ping`: a HEAD request against the endpoint; on
success the `pinged` flag is set.  Returns the error (`none` = success)
and the reader state after the call. -/
def ExpvarReader.ping (r : ExpvarReader) (oc : PingOutcome) :
    Option Err × ExpvarReader :=
  match oc with
  | .ok => (none, { r with pinged := true })
  | .unavailable => (some (.endpointNotAvailable r.endpoint), r)

/-- `reader/expvar.Reader.Read`.  `isJSON` is `tools.IsJSON` (external to
the snapshot: a well-formed-JSON check on the body bytes), `oc` the
outcome of the HTTP GET, `jobID` the token's identifier. -/
def ExpvarReader.read (r : ExpvarReader) (jobID : Nat)
    (isJSON : String → Bool) (oc : FetchOutcome) : Except Err ReaderResult :=
  if !r.pinged then .error .pingNotCalled
  else
    match oc with
    | .urlError => .error (.endpointNotAvailable r.endpoint)
    | .otherError => .error (.transport .otherErr)
    | .readBodyError => .error .readBuffer
    | .body content =>
        if !isJSON content then .error .invalidJSON
        else .ok { id := jobID, content := content, typeName := r.typeName }

/-- `reader/self.Reader` (logger, mapper, quit channel and temp server
omitted). -/
structure SelfReader where
  name : String
  typeName : String
  endpoint : String
  interval : Nat
  timeout : Nat
  pinged : Bool
  testMode : Bool
deriving DecidableEq, Repr

/-- `reader/self.New` with the option functions already applied (same
convention as `ExpvarReader.new`); `testMode` is only ever set by the
`SetTestMode` test hook, never by an option, so it starts `false`. -/
def SelfReader.new (name endpoint typeName : String)
    (interval timeout : Nat) : Except Err SelfReader :=
  if name = "" then .error .emptyName
  else if endpoint = "" then .error .emptyEndpoint
  else
    .ok { name := name, endpoint := endpoint,
          typeName := if typeName = "" then name else typeName,
          interval := if interval = 0 then second else interval,
          timeout := if timeout = 0 then 5 * second else timeout,
          pinged := false, testMode := false }

/-- `reader/self.Reader.Ping` (same shape as the expvar ping). -/
def SelfReader.ping (r : SelfReader) (oc : PingOutcome) :
    Option Err × SelfReader :=
  match oc with
  | .ok => (none, { r with pinged := true })
  | .unavailable => (some (.endpointNotAvailable r.endpoint), r)

/-- Outcome of the test-mode-only branch of `self.Reader.Read`: the
`readMetricsFromURL` helper can fail, the `checkJSON` probe can report
non-JSON, or both can pass. -/
inductive SelfTestOutcome where
  | fetchErr (e : Err)
  | notJSON
  | okJSON
deriving DecidableEq, Repr

/-- The JSON document `self.Reader.Read` renders from the expvar registry:
`"key": value` lines joined by commas inside braces. -/
def renderRegistry (registry : List (String × String)) : String :=
  "\x7b\n" ++
    String.intercalate ",\n"
      (registry.map (fun kv => "\"" ++ kv.1 ++ "\": " ++ kv.2)) ++
  "\n\x7d\n"

/-- `reader/self.Reader.Read`.  `registry` is the process-wide expvar
registry in iteration order; `t` the outcome of the test-mode branch
(irrelevant when `testMode` is off, as in production). -/
def SelfReader.read (r : SelfReader) (jobID : Nat)
    (registry : List (String × String)) (t : SelfTestOutcome) :
    Except Err ReaderResult :=
  if !r.pinged then .error .pingNotCalled
  else
    let gate : Option Err :=
      if r.testMode then
        match t with
        | .fetchErr e => some e
        | .notJSON => some .invalidJSON
        | .okJSON => none
      else none
    match gate with
    | some e => .error e
    | none =>
        .ok { id := jobID, content := renderRegistry registry,
              typeName := r.typeName }

/-- Which non-`done` arm the outer select of `Engine.issueReaderJob` takes
when the spawned read has not completed in time: the hard-deadline timer,
or parent-context cancellation. -/
inductive LateArm where
  | timer
  | ctx
deriving DecidableEq, Repr

/-- Joint outcome of the read goroutine spawned by `Engine.issueReaderJob`
and of the surrounding select.  The goroutine is never cancelled by the
hard-deadline timer — the job token is `token.New(e.ctx)`, carrying no
deadline of its own — so its behaviour and the select's arm are recorded
separately: the result was sent and `done` closed before the timer or the
context fired (`completedInTime`); the read returned an error, in which
case `done` is never closed and the select necessarily ends late
(`failed`); the select ended late but the read still returned a result
afterwards (`lateSuccess`); or the read never completed in this session
(`neverCompleted`). -/
inductive ReadJobOutcome where
  | completedInTime (res : ReaderResult)
  | failed (e : Err) (arm : LateArm)
  | lateSuccess (res : ReaderResult) (arm : LateArm)
  | neverCompleted (arm : LateArm)
deriving DecidableEq, Repr

/-- Observable effects of one run of `Engine.issueReaderJob`:
counter deltas, whether `red.Read` was ever invoked, the hard deadline
armed for the job (`none` when the shutdown short-circuit returned before
arming it), the result the goroutine sends on the shared `readerJobs`
channel (whether or not the select had already given up on it), and the
reader name sent on the supervisor's `remove` channel. -/
structure ReadJobEffects where
  readJobsDelta : Nat
  erroredDelta : Nat
  readCalled : Bool
  deadline : Option Nat
  published : Option ReaderResult
  removeMsg : Option String
deriving DecidableEq, Repr

/-- `Engine.issueReaderJob` (engine event-loop file).  `shutdownClosed`
tells whether the engine's one-shot `shutdown` channel is already closed
when the leading select runs; `redName`/`redTimeout` are the reader's
getters; `oc` is how the spawned read turned out.  Mirrors the source:
`readJobs` is incremented before the shutdown check; when shutdown is
closed the function returns without creating a job token or calling
`Read`; the hard deadline is `red.Timeout() + 10*time.Second`; an errored
or silent read leaves `done` unclosed, so the outer select ends on the
timer or on context cancellation, bumping `erroredJobs`; the reader's
name goes on `remove` exactly when the read error is
`reader.ErrBackoffExceeded`.  Nothing stops the goroutine when the timer
fires: `e.readerJobs <- res` is unconditional, so a read that succeeds
after the hard deadline still sends its result, which a live supervisor
receives and ships. -/
def issueReaderJob (shutdownClosed : Bool) (redName : String)
    (redTimeout : Nat) (oc : ReadJobOutcome) : ReadJobEffects :=
  if shutdownClosed then
    { readJobsDelta := 1, erroredDelta := 0, readCalled := false,
      deadline := none, published := none, removeMsg := none }
  else
    let dl := redTimeout + 10 * second
    match oc with
    | .completedInTime res =>
        { readJobsDelta := 1, erroredDelta := 0, readCalled := true,
          deadline := some dl, published := some res, removeMsg := none }
    | .failed e _ =>
        { readJobsDelta := 1, erroredDelta := 1, readCalled := true,
          deadline := some dl, published := none,
          removeMsg := if e = .backoffExceeded then some redName else none }
    | .lateSuccess res _ =>
        { readJobsDelta := 1, erroredDelta := 1, readCalled := true,
          deadline := some dl, published := some res, removeMsg := none }
    | .neverCompleted _ =>
        { readJobsDelta := 1, erroredDelta := 1, readCalled := true,
          deadline := some dl, published := none, removeMsg := none }

/-- Observable effects of one run of `Engine.shipToRecorder`: the
`recordJobs` delta, whether `recorder.Record` was invoked, and whether the
run closes the engine's `shutdown` channel. -/
structure ShipEffects where
  recordJobsDelta : Nat
  recordCalled : Bool
  closesShutdown : Bool
deriving DecidableEq, Repr

/-- `Engine.shipToRecorder`.  `payloadHasError` tells whether the
`DataContainer` built from the result carries a container-level error
(`payload.Error() != nil`), in which case the job is dropped before any
record attempt; `recordErr` is what `recorder.Record` returned.  The
spawned goroutine closes `shutdown` exactly when that error is
`reader.ErrBackoffExceeded`, regardless of which arm the outer select
takes. -/
def shipToRecorder (payloadHasError : Bool) (recordErr : Option Err) :
    ShipEffects :=
  if payloadHasError then
    { recordJobsDelta := 0, recordCalled := false, closesShutdown := false }
  else
    { recordJobsDelta := 1, recordCalled := true,
      closesShutdown := recordErr = some Err.backoffExceeded }

/-- One event a reader supervisor (`Engine.readerEventLoop`) can select
on: a ticker fire, a result arriving on the shared channel, a name on the
`remove` channel, the closed `shutdown` channel, or parent-context
cancellation. -/
inductive LoopEvent where
  | tick
  | result (res : ReaderResult)
  | removeName (n : String)
  | shutdownSig
  | ctxDone
deriving DecidableEq, Repr

/-- What a supervisor does in reaction to one selected event. -/
inductive LoopEffect where
  | issuedReadJob
  | shippedResult (res : ReaderResult)
  | removedReader (n : String)
  | stopped
deriving DecidableEq, Repr

/-- `Engine.readerEventLoop`'s select loop, run over a sequence of
selected events: a tick spawns `issueReaderJob`; a shared-channel result
spawns `shipToRecorder`; a name on `remove` deletes that reader from
`e.readers` and breaks the loop; `shutdown` and context cancellation
break the loop.  Returns the emitted effects in order and the active
reader set when the loop ends; events after a loop-breaking one are never
processed. -/
def runReaderLoop (readers : List String) :
    List LoopEvent → List LoopEffect × List String
  | [] => (([] : List LoopEffect), readers)
  | .tick :: rest =>
      let r := runReaderLoop readers rest
      (.issuedReadJob :: r.1, r.2)
  | .result res :: rest =>
      let r := runReaderLoop readers rest
      (.shippedResult res :: r.1, r.2)
  | .removeName n :: _ => ([.removedReader n], readers.erase n)
  | .shutdownSig :: _ => ([.stopped], readers)
  | .ctxDone :: _ => ([.stopped], readers)

/-- A parsed route (`config.route`): the reader names and recorder names
accumulated from the route's value lists. -/
structure Route where
  readers : List String
  recorders : List String
deriving DecidableEq, Repr

/-- Configuration-loader errors (`config` package).  `notSpecified` covers
`NewNotSpecifiedError`, `routersErr` covers `NewRoutersError`,
`structureErr` covers `StructureErr`; the `errors.WithMessage` /
`errors.Wrap` annotations added on the way out of `LoadYAML` only prefix
the message and keep the cause, so they are not modelled. -/
inductive ConfErr where
  | emptyConfig
  | structureErr (section_ msg : String)
  | notSpecified (section_ msg : String)
  | routersErr (section_ msg : String)
  | notSupported (t : String)
  | wrapped (e : Err)
deriving DecidableEq, Repr

/-- The raw YAML document as viper hands it to the loader: whether
`AllSettings()` is empty, the `settings` section flags, and the three
sections in iteration order (`none` when the key is absent).  A reader or
recorder entry is `name ↦ type string`; a route entry is
`name ↦ (key ↦ value list)` for the keys inside the route. -/
structure RawConfig where
  allSettingsEmpty : Bool
  settingsPresent : Bool
  logLevelSet : Bool
  logLevelIsString : Bool
  readersSection : Option (List (String × String))
  recordersSection : Option (List (String × String))
  routesSection : Option (List (String × List (String × List String)))

/-- `config.getReaders`: every reader entry must carry type `self` or
`expvar`; an empty or unknown type aborts with `NewNotSpecifiedError`. -/
def getReaders (c : RawConfig) : Except ConfErr (List (String × String)) :=
  match c.readersSection with
  | none => .error (.notSpecified "readers" "")
  | some entries =>
      let rec go : List (String × String) →
          Except ConfErr (List (String × String))
        | [] => .ok []
        | (name, rType) :: rest =>
            if rType = "self" ∨ rType = "expvar" then
              do let tl ← go rest; return (name, rType) :: tl
            else .error (.notSpecified name "type")
      go entries

/-- `config.getRecorders`: every recorder entry must carry type
`elasticsearch`. -/
def getRecorders (c : RawConfig) : Except ConfErr (List (String × String)) :=
  match c.recordersSection with
  | none => .error (.notSpecified "recorders" "")
  | some entries =>
      let rec go : List (String × String) →
          Except ConfErr (List (String × String))
        | [] => .ok []
        | (name, rType) :: rest =>
            if rType = "elasticsearch" then
              do let tl ← go rest; return (name, rType) :: tl
            else .error (.notSpecified name "type")
      go entries

/-- The inner key loop of `config.getRoutes`: walks the `key ↦ targets`
lists of one route, rejecting any target containing a comma and
appending targets under the `readers` and `recorders` keys (other keys
are ignored). -/
def buildRoute (rt : Route) :
    List (String × List String) → Except ConfErr Route
  | [] => .ok rt
  | (key, targets) :: rest =>
      if targets.any (fun t => t.data.contains ',') then
        .error (.routersErr key "not an array or single value")
      else
        let rt' :=
          if key = "readers" then { rt with readers := rt.readers ++ targets }
          else if key = "recorders" then
            { rt with recorders := rt.recorders ++ targets }
          else rt
        buildRoute rt' rest

/-- `config.getRoutes`: parses each route and requires both lists to be
non-empty. -/
def getRoutes (c : RawConfig) : Except ConfErr (List (String × Route)) :=
  match c.routesSection with
  | none => .error (.notSpecified "routes" "")
  | some entries =>
      let rec go : List (String × List (String × List String)) →
          Except ConfErr (List (String × Route))
        | [] => .ok []
        | (name, raw) :: rest => do
            let rt ← buildRoute { readers := [], recorders := [] } raw
            if rt.readers.isEmpty then
              .error (.routersErr "readers" "is empty")
            else if rt.recorders.isEmpty then
              .error (.routersErr "recorders" "is empty")
            else
              do let tl ← go rest; return (name, rt) :: tl
      go entries

/-- `config.checkAgainstReadRecorders`: every name used in a route must be
a key of the corresponding section; returns the first complaint, `none`
when all names check out. -/
def checkAgainstReadRecorders (routes : List (String × Route))
    (readerKeys recorderKeys : List String) : Option ConfErr :=
  match routes with
  | [] => none
  | (_, sect) :: rest =>
      match sect.readers.find? (fun r => !readerKeys.contains r) with
      | some r => some (.routersErr "routers" (r ++ " not in readers"))
      | none =>
          match sect.recorders.find? (fun r => !recorderKeys.contains r) with
          | some r => some (.routersErr "routers" (r ++ " not in recorders"))
          | none => checkAgainstReadRecorders rest readerKeys recorderKeys

/-- `config.readerInRoutes`: the name appears in some route's readers. -/
def readerInRoutes (name : String) (routes : List (String × Route)) : Bool :=
  routes.any (fun r => r.2.readers.contains name)

/-- `config.recorderInRoutes`: the name appears in some route's
recorders. -/
def recorderInRoutes (name : String) (routes : List (String × Route)) : Bool :=
  routes.any (fun r => r.2.recorders.contains name)

/-- Association-list update used to model `readerMap[redName]` in
`mapReadersRecorders`: append `v` to the entry of `k`, creating the entry
at the end when `k` is new (a fresh Go map key). -/
def appendAt (m : List (String × List String)) (k v : String) :
    List (String × List String) :=
  match m with
  | [] => [(k, [v])]
  | (k', vs) :: rest =>
      if k' = k then (k', vs ++ [v]) :: rest else (k', vs) :: appendAt rest k v

/-- First pass of `config.mapReadersRecorders`: for every route, for every
reader name in it, every recorder name of the route is appended to that
reader's entry. -/
def buildReaderMap (routes : List (String × Route)) :
    List (String × List String) :=
  routes.foldl
    (fun m nr =>
      nr.2.readers.foldl
        (fun m' redName =>
          nr.2.recorders.foldl (fun m'' recName => appendAt m'' redName recName)
            m')
        m)
    []

/-- The `checkMap` cleanup loop of `config.mapReadersRecorders`: keeps the
first occurrence of each name, dropping later duplicates; `seen` is the
set of names already kept. -/
def dedupFirst (seen : List String) : List String → List String
  | [] => []
  | x :: xs =>
      if x ∈ seen then dedupFirst seen xs else x :: dedupFirst (x :: seen) xs

/-- `config.mapReadersRecorders`: the reader→recorders table, built by the
accumulation pass and then de-duplicated per reader by the `checkMap`
pass. -/
def mapReadersRecorders (routes : List (String × Route)) :
    List (String × List String) :=
  (buildReaderMap routes).map (fun kv => (kv.1, dedupFirst [] kv.2))

/-- Keyed access into an association-list map, `[]` when the key has no
entry (a Go map read of a missing key yields the zero value). -/
def lookupD (m : List (String × List String)) (k : String) : List String :=
  match m with
  | [] => []
  | (k', vs) :: rest => if k' = k then vs else lookupD rest k

/-- The reader→recorders list of one reader in the table, `[]` when the
table has no entry for it. -/
def recordersFor (routes : List (String × Route)) (redName : String) :
    List String :=
  lookupD (mapReadersRecorders routes) redName

/-- `ConfMap`: instantiated readers and recorders (of abstract instance
types, since the concrete objects hold live HTTP state) plus the
reader→recorders table. -/
structure ConfMap (α β : Type) where
  readers : List (String × α)
  recorders : List (String × β)
  routes : List (String × List String)

/-- The reader-instantiation loop of `config.loadConfiguration`: every
key is parsed (`parseReader`), a parse error aborts the whole load, and
the instance is kept only when the name is used by some route. -/
def instantiateReaders {α : Type} (pr : String → String → Except ConfErr α)
    (routes : List (String × Route)) :
    List (String × String) → Except ConfErr (List (String × α))
  | [] => .ok []
  | (name, rType) :: rest => do
      let r ← pr rType name
      let tl ← instantiateReaders pr routes rest
      if readerInRoutes name routes then .ok ((name, r) :: tl) else .ok tl

/-- The recorder-instantiation loop of `config.loadConfiguration` (same
shape, keyed on `recorderInRoutes`). -/
def instantiateRecorders {β : Type} (rr : String → String → Except ConfErr β)
    (routes : List (String × Route)) :
    List (String × String) → Except ConfErr (List (String × β))
  | [] => .ok []
  | (name, rType) :: rest => do
      let r ← rr rType name
      let tl ← instantiateRecorders rr routes rest
      if recorderInRoutes name routes then .ok ((name, r) :: tl) else .ok tl

/-- `config.loadConfiguration`.  `pr` and `rr` stand for `parseReader` and
`readRecorders`, which hand the viper subtree to the reader/recorder
constructors; they are parameters because their work (HTTP pings, option
processing) happens outside this function. -/
def loadConfiguration {α β : Type} (pr : String → String → Except ConfErr α)
    (rr : String → String → Except ConfErr β)
    (routes : List (String × Route))
    (readerKeys recorderKeys : List (String × String)) :
    Except ConfErr (ConfMap α β) := do
  let reds ← instantiateReaders pr routes readerKeys
  let recs ← instantiateRecorders rr routes recorderKeys
  return { readers := reds, recorders := recs,
           routes := mapReadersRecorders routes }

/-- `config.LoadYAML`: empty-config check, settings check, section
parsing, the route/section cross-check, then `loadConfiguration`. -/
def LoadYAML {α β : Type} (pr : String → String → Except ConfErr α)
    (rr : String → String → Except ConfErr β) (c : RawConfig) :
    Except ConfErr (ConfMap α β) := do
  if c.allSettingsEmpty then
    .error .emptyConfig
  else if c.settingsPresent ∧ c.logLevelSet ∧ ¬c.logLevelIsString then
    .error (.structureErr "settings" "")
  else do
    let readerKeys ← getReaders c
    let recorderKeys ← getRecorders c
    let routes ← getRoutes c
    match checkAgainstReadRecorders routes (readerKeys.map Prod.fst)
        (recorderKeys.map Prod.fst) with
    | some e => .error e
    | none => loadConfiguration pr rr routes readerKeys recorderKeys

/-- Claim C1: a `BackoffExceeded` error from the recorder's `Record` call
makes `shipToRecorder` close the engine's one-shot shutdown channel; once
the shutdown channel is closed, every supervisor's select breaks the loop
on it, and an already-spawned `issueReaderJob` returns before calling
`Read` or publishing anything, so no further read jobs are issued. -/
theorem claim_C1_recorder_backoff_shuts_down :
    (shipToRecorder false (some .backoffExceeded)).closesShutdown = true
  ∧ (∀ readers evs,
      runReaderLoop readers (.shutdownSig :: evs) = ([.stopped], readers))
  ∧ (∀ redName redTimeout oc,
        (issueReaderJob true redName redTimeout oc).readCalled = false
      ∧ (issueReaderJob true redName redTimeout oc).published = none
      ∧ (issueReaderJob true redName redTimeout oc).removeMsg = none) := by
  refine ⟨by simp [shipToRecorder], fun readers evs => rfl,
    fun redName redTimeout oc => ⟨rfl, rfl, rfl⟩⟩

/-- A concrete result used to exhibit the late-publish behaviour of
`issueReaderJob`. -/
def c8Res : ReaderResult :=
  { id := 7, content := "\x7b\x22a\x22:1\x7d", typeName := "t" }

/-- Claim C8 (counterexample): when the hard-deadline timer fires before
the read completes, the engine increments the errored-reads counter —
but the spawned read is not cancelled, and if it then succeeds its
result is still sent on the shared channel and shipped: the result is
not dropped, contradicting the claim's no-publish conclusion. -/
theorem claim_C8_counterexample :
    (issueReaderJob false "app" second
        (.lateSuccess c8Res .timer)).erroredDelta = 1
  ∧ ¬ (issueReaderJob false "app" second
        (.lateSuccess c8Res .timer)).published = none := by
  refine ⟨rfl, by decide⟩

/-- Claim C8 (amended): while the engine is not shut down,
`issueReaderJob` arms the hard deadline `R.timeout() + 10s` for every
outcome of the read, and when the hard deadline fires or the parent
context is cancelled before the read completes it increments the
errored-reads counter; but the spawned read is not cancelled by the hard
wall, so the result is absent only when the read itself fails or never
completes — a read that succeeds after the deadline still sends its
result on the shared channel. -/
theorem claim_C8_hard_deadline (redName : String) (redTimeout : Nat) :
    (∀ oc, (issueReaderJob false redName redTimeout oc).deadline =
       some (redTimeout + 10 * second))
  ∧ (∀ arm,
      ((issueReaderJob false redName redTimeout
          (.neverCompleted arm)).erroredDelta = 1
     ∧ (issueReaderJob false redName redTimeout
          (.neverCompleted arm)).published = none)
     ∧ ∀ e,
        ((issueReaderJob false redName redTimeout
            (.failed e arm)).erroredDelta = 1
       ∧ (issueReaderJob false redName redTimeout
            (.failed e arm)).published = none))
  ∧ (∀ res arm,
        (issueReaderJob false redName redTimeout
          (.lateSuccess res arm)).erroredDelta = 1
      ∧ (issueReaderJob false redName redTimeout
          (.lateSuccess res arm)).published = some res) := by
  refine ⟨fun oc => ?_, fun arm => ⟨⟨rfl, rfl⟩, fun e => ⟨rfl, rfl⟩⟩,
    fun res arm => ⟨rfl, rfl⟩⟩
  cases oc <;> rfl

/-- Claim C5 (divergence witness): the elasticsearch `FromViper` rejects
`backoff: 5` — its guard is `Backoff_ <= 5` although its own error message
reads `back off should be at least 5` — while the recorder-side
`NewSimpleRecorder` accepts 5 and rejects exactly `backoff < 5` as the
spec states.  Evaluates both constructors at backoff 4, 5 and 6. -/
theorem claim_C5_backoff_validation :
    FromViper "es" (some (8 * second)) 4 "127.0.0.1:9200" "idx"
      (some "http://127.0.0.1:9200") = .error (.lowBackoffValue 4)
  ∧ FromViper "es" (some (8 * second)) 5 "127.0.0.1:9200" "idx"
      (some "http://127.0.0.1:9200") = .error (.lowBackoffValue 5)
  ∧ FromViper "es" (some (8 * second)) 6 "127.0.0.1:9200" "idx"
      (some "http://127.0.0.1:9200") =
      .ok { name := "es", endpoint := "http://127.0.0.1:9200",
            timeout := 8 * second, backoff := 6, indexName := "idx" }
  ∧ NewSimpleRecorder "rec" "127.0.0.1:9200" "idx" second 5
      (some "http://127.0.0.1:9200") =
      .ok { name := "rec", endpoint := "http://127.0.0.1:9200",
            indexName := "idx", timeout := second, backoff := 5,
            strike := 0, recordFuncResult := none }
  ∧ NewSimpleRecorder "rec" "127.0.0.1:9200" "idx" second 4
      (some "http://127.0.0.1:9200") = .error (.lowBackoffValue 4) := by
  refine ⟨rfl, rfl, rfl, rfl, rfl⟩

/-- A recorder state reachable from `NewSimpleRecorder` with backoff 5
after three connection-refused strikes; used to exhibit the strike
behaviour of `SimpleRecorder.Record`. -/
def c2Rec0 : SimpleRecorder :=
  { name := "rec", endpoint := "http://recorder", indexName := "idx",
    timeout := second, backoff := 5, strike := 0, recordFuncResult := none }

/-- Claim C2 (counterexample): `SimpleRecorder.Record` never resets the
strike count — after three connection-refused strikes a successful record
leaves the count at 3, not 0 — and a transport error that is not a
connection-refused `*url.Error` does not increment the count.  Both
contradict the claim as stated. -/
theorem claim_C2_counterexample :
    NewSimpleRecorder "rec" "http://recorder" "idx" second 5
      (some "http://recorder") = .ok c2Rec0
  ∧ (((c2Rec0.record .connRefused).2.record
        .connRefused).2.record .connRefused).2.strike = 3
  ∧ ((((c2Rec0.record .connRefused).2.record
        .connRefused).2.record .connRefused).2.record .ok).1 = none
  ∧ ¬ ((((c2Rec0.record .connRefused).2.record
        .connRefused).2.record .connRefused).2.record .ok).2.strike = 0
  ∧ ¬ (c2Rec0.record .otherURLError).2.strike = c2Rec0.strike + 1 := by
  refine ⟨rfl, rfl, rfl, by decide, by decide⟩

/-- Claim C2 (amended): for a recorder without the test hook, as
constructed by `NewSimpleRecorder`, a `Record` call whose transport error
is a connection-refused `*url.Error` increments the strike count by one
(other transport outcomes leave it unchanged); once the strike count
exceeds the backoff threshold every `Record` call returns
`BackoffExceeded` without touching the state; a successful `Record` call
returns no error and leaves the strike count unchanged — it is never
reset. -/
theorem claim_C2_strike_behaviour (s : SimpleRecorder)
    (hfn : s.recordFuncResult = none) :
    (s.strike > s.backoff → ∀ oc, s.record oc = (some .backoffExceeded, s))
  ∧ (s.strike ≤ s.backoff →
        s.record .connRefused =
          (some (.transport .connRefused), { s with strike := s.strike + 1 })
      ∧ s.record .ok = (none, s)
      ∧ s.record .otherURLError = (some (.transport .otherURLError), s)
      ∧ s.record .otherErr = (some (.transport .otherErr), s)) := by
  constructor
  · intro hgt oc
    cases oc <;> simp [SimpleRecorder.record, hfn, hgt]
  · intro hle
    have hngt : ¬ s.strike > s.backoff := not_lt.mpr hle
    exact ⟨by simp [SimpleRecorder.record, hfn, hngt],
      by simp [SimpleRecorder.record, hfn, hngt],
      by simp [SimpleRecorder.record, hfn, hngt],
      by simp [SimpleRecorder.record, hfn, hngt]⟩

/-- Witness for the amended claim C2, at the concrete recorder
`c2Rec0` (strike 0, backoff 5): a connection-refused record moves the
strike to 1 and a successful record keeps it at 0. -/
theorem claim_C2_strike_behaviour_witness :
    c2Rec0.record .connRefused =
      (some (.transport .connRefused), { c2Rec0 with strike := 1 })
  ∧ c2Rec0.record .ok = (none, c2Rec0) :=
  ⟨((claim_C2_strike_behaviour c2Rec0 rfl).2 (by decide)).1,
   ((claim_C2_strike_behaviour c2Rec0 rfl).2 (by decide)).2.1⟩

/-- Claim C3: for both readers, a freshly constructed reader is unpinged,
only a successful `Ping` sets the `pinged` flag, `Read` fails with
`PingNotCalled` (and no result) while the flag is unset, and `Read` can
only return a result when the flag is set. -/
theorem claim_C3_ping_before_read :
    (∀ name endpoint typeName interval timeout r,
        ExpvarReader.new name endpoint typeName interval timeout = .ok r →
        r.pinged = false)
  ∧ (∀ r : ExpvarReader,
        (r.ping .unavailable).2.pinged = r.pinged
      ∧ (r.ping .ok).2.pinged = true)
  ∧ (∀ r : ExpvarReader, r.pinged = false →
        ∀ jobID isJSON oc, r.read jobID isJSON oc = .error .pingNotCalled)
  ∧ (∀ (r : ExpvarReader) jobID isJSON oc res,
        r.read jobID isJSON oc = .ok res → r.pinged = true)
  ∧ (∀ name endpoint typeName interval timeout r,
        SelfReader.new name endpoint typeName interval timeout = .ok r →
        r.pinged = false)
  ∧ (∀ r : SelfReader,
        (r.ping .unavailable).2.pinged = r.pinged
      ∧ (r.ping .ok).2.pinged = true)
  ∧ (∀ r : SelfReader, r.pinged = false →
        ∀ jobID registry t, r.read jobID registry t = .error .pingNotCalled)
  ∧ (∀ (r : SelfReader) jobID registry t res,
        r.read jobID registry t = .ok res → r.pinged = true) := by
  refine ⟨?_, fun r => ⟨rfl, rfl⟩, ?_, ?_, ?_, fun r => ⟨rfl, rfl⟩, ?_, ?_⟩
  · intro name endpoint typeName interval timeout r h
    unfold ExpvarReader.new at h
    split at h
    · exact absurd h (by simp)
    · split at h
      · exact absurd h (by simp)
      · simp only [Except.ok.injEq] at h
        subst h
        rfl
  · intro r hp jobID isJSON oc
    simp [ExpvarReader.read, hp]
  · intro r jobID isJSON oc res h
    by_contra hne
    have hp : r.pinged = false := by
      cases hr : r.pinged
      · rfl
      · exact absurd hr hne
    simp [ExpvarReader.read, hp] at h
  · intro name endpoint typeName interval timeout r h
    unfold SelfReader.new at h
    split at h
    · exact absurd h (by simp)
    · split at h
      · exact absurd h (by simp)
      · simp only [Except.ok.injEq] at h
        subst h
        rfl
  · intro r hp jobID registry t
    simp [SelfReader.read, hp]
  · intro r jobID registry t res h
    by_contra hne
    have hp : r.pinged = false := by
      cases hr : r.pinged
      · rfl
      · exact absurd hr hne
    simp [SelfReader.read, hp] at h

/-- Witness for claim C3 at concrete readers: a fresh expvar reader (and a
fresh self reader) refuses to read before a ping, and after a successful
ping the flag is set. -/
theorem claim_C3_ping_before_read_witness :
    (ExpvarReader.new "app" "http://app:1234" "t" second second =
      .ok { name := "app", endpoint := "http://app:1234", typeName := "t",
            interval := second, timeout := second, pinged := false })
  ∧ ({ name := "app", endpoint := "http://app:1234", typeName := "t",
       interval := second, timeout := second,
       pinged := false : ExpvarReader }.read 7 (fun _ => true)
         (.body "\x7b\x7d") = .error .pingNotCalled) := by
  constructor
  · rfl
  · exact claim_C3_ping_before_read.2.2.1
      { name := "app", endpoint := "http://app:1234", typeName := "t",
        interval := second, timeout := second, pinged := false }
      rfl 7 (fun _ => true) (.body "\x7b\x7d")

/-- Claim C7: once the expvar reader is pinged and a body has been
fetched, `Read` returns `InvalidJSON` with no result exactly when the body
fails the well-formed-JSON check, and otherwise returns a result whose
content is the body bytes. -/
theorem claim_C7_invalid_json (r : ExpvarReader) (hp : r.pinged = true)
    (jobID : Nat) (isJSON : String → Bool) (body : String) :
    (r.read jobID isJSON (.body body) = .error .invalidJSON ↔
      isJSON body = false)
  ∧ (isJSON body = true →
      r.read jobID isJSON (.body body) =
        .ok { id := jobID, content := body, typeName := r.typeName }) := by
  constructor
  · constructor
    · intro h
      cases hj : isJSON body
      · rfl
      · simp [ExpvarReader.read, hp, hj] at h
    · intro hj
      simp [ExpvarReader.read, hp, hj]
  · intro hj
    simp [ExpvarReader.read, hp, hj]

/-- Witness for claim C7 at a concrete pinged reader, body and JSON
check: an empty body flagged as non-JSON yields `InvalidJSON`. -/
theorem claim_C7_invalid_json_witness :
    ({ name := "app", endpoint := "http://app:1234", typeName := "t",
       interval := second, timeout := second,
       pinged := true : ExpvarReader }.read 7
         (fun s => !s.isEmpty) (.body "") = .error .invalidJSON ↔
      (fun s : String => !s.isEmpty) "" = false)
  ∧ ((fun s : String => !s.isEmpty) "\x7b\x7d" = true →
      ({ name := "app", endpoint := "http://app:1234", typeName := "t",
         interval := second, timeout := second,
         pinged := true : ExpvarReader }.read 7
           (fun s => !s.isEmpty) (.body "\x7b\x7d") =
        .ok { id := 7, content := "\x7b\x7d", typeName := "t" })) :=
  ⟨(claim_C7_invalid_json _ rfl 7 (fun s => !s.isEmpty) "").1,
   (claim_C7_invalid_json _ rfl 7 (fun s => !s.isEmpty) "\x7b\x7d").2⟩

/-- In any run of the supervisor loop, a `removedReader` effect is the
last effect emitted: eviction breaks the loop. -/
theorem runReaderLoop_removed_last (readers : List String)
    (evs : List LoopEvent) (i : Nat) (n : String)
    (h : (runReaderLoop readers evs).1[i]? = some (.removedReader n)) :
    i + 1 = (runReaderLoop readers evs).1.length := by
  induction evs generalizing i with
  | nil => simp [runReaderLoop] at h
  | cons ev rest ih =>
    cases ev with
    | tick =>
      cases i with
      | zero => simp [runReaderLoop] at h
      | succ j =>
        have := ih j (by simpa [runReaderLoop] using h)
        simp [runReaderLoop, this]
    | result res =>
      cases i with
      | zero => simp [runReaderLoop] at h
      | succ j =>
        have := ih j (by simpa [runReaderLoop] using h)
        simp [runReaderLoop, this]
    | removeName m =>
      cases i with
      | zero => simp [runReaderLoop]
      | succ j => simp [runReaderLoop] at h
    | shutdownSig =>
      cases i with
      | zero => simp [runReaderLoop] at h
      | succ j => simp [runReaderLoop] at h
    | ctxDone =>
      cases i with
      | zero => simp [runReaderLoop] at h
      | succ j => simp [runReaderLoop] at h

/-- Claim C4: a `BackoffExceeded` read error makes `issueReaderJob`
publish nothing and send the reader's name on the `remove` channel; the
supervisor that receives the name deletes the reader from the active set
and terminates its loop immediately, so no read job for it is ever
issued after the eviction. -/
theorem claim_C4_reader_eviction :
    (∀ redName redTimeout arm,
        (issueReaderJob false redName redTimeout
           (.failed .backoffExceeded arm)).published = none
      ∧ (issueReaderJob false redName redTimeout
           (.failed .backoffExceeded arm)).removeMsg = some redName)
  ∧ (∀ readers n evs,
        runReaderLoop readers (.removeName n :: evs) =
          ([.removedReader n], readers.erase n))
  ∧ (∀ (readers : List String) (evs : List LoopEvent) (n : String)
        (i j : Nat), i < j →
        (runReaderLoop readers evs).1[i]? =
          some (LoopEffect.removedReader n) →
        (runReaderLoop readers evs).1[j]? ≠
          some LoopEffect.issuedReadJob) := by
  refine ⟨fun redName redTimeout arm => ⟨rfl, rfl⟩,
    fun readers n evs => rfl, ?_⟩
  intro readers evs n i j hij hi hj
  have hlast := runReaderLoop_removed_last readers evs i n hi
  have hlen : (runReaderLoop readers evs).1.length ≤ j := by omega
  rw [List.getElem?_eq_none hlen] at hj
  exact Option.noConfusion hj

/-- Witness for claim C4: the concrete supervisor run
`[removeName r1, tick]` over the active set `[r1, r2]` evicts `r1`,
stops, and the tick event after the eviction never issues a job. -/
theorem claim_C4_reader_eviction_witness :
    ((issueReaderJob false "r1" second
        (.failed .backoffExceeded .timer)).published = none
    ∧ (issueReaderJob false "r1" second
        (.failed .backoffExceeded .timer)).removeMsg = some "r1")
  ∧ runReaderLoop ["r1", "r2"] [.removeName "r1", .tick] =
      ([.removedReader "r1"], ["r2"])
  ∧ (runReaderLoop ["r1", "r2"] [.removeName "r1", .tick]).1[1]? ≠
      some .issuedReadJob := by
  refine ⟨claim_C4_reader_eviction.1 "r1" second .timer, ?_, ?_⟩
  · have h := claim_C4_reader_eviction.2.1 ["r1", "r2"] "r1" [.tick]
    rw [h]
    decide
  · exact claim_C4_reader_eviction.2.2 ["r1", "r2"]
      [.removeName "r1", .tick] "r1" 0 1 (by decide) (by decide)


/-- The recorder names one reader name collects from one list of route
readers: the route's recorders once per occurrence of the name. -/
def readersContrib (red : String) (readers recs : List String) : List String :=
  (readers.map (fun rn => if rn = red then recs else [])).flatten

/-- The recorder names one reader collects from one route. -/
def routeContrib (red : String) (rt : Route) : List String :=
  readersContrib red rt.readers rt.recorders

/-- All recorder names routed to `red`, in route order — the order in
which `mapReadersRecorders`'s first pass appends them. -/
def gatherFor (red : String) (routes : List (String × Route)) : List String :=
  (routes.map (fun nr => routeContrib red nr.2)).flatten

/-- `appendAt` changes only the entry of its key, appending the value. -/
theorem lookupD_appendAt (m : List (String × List String)) (k v k' : String) :
    lookupD (appendAt m k v) k' =
      if k = k' then lookupD m k' ++ [v] else lookupD m k' := by
  induction m with
  | nil =>
    by_cases h : k = k' <;> simp [appendAt, lookupD, h]
  | cons kv rest ih =>
    obtain ⟨k0, vs0⟩ := kv
    by_cases h0 : k0 = k
    · subst h0
      by_cases h : k0 = k' <;> simp [appendAt, lookupD, h]
    · have h0' : ¬ k = k0 := fun hh => h0 hh.symm
      by_cases h : k0 = k'
      · subst h
        simp [appendAt, lookupD, h0, h0']
      · simp [appendAt, lookupD, h0, h, ih]

/-- The innermost fold of `buildReaderMap` (appending every recorder name
of a route under one reader name). -/
theorem lookupD_recFold (recs : List String)
    (m : List (String × List String)) (redName red : String) :
    lookupD (recs.foldl (fun m'' recName => appendAt m'' redName recName) m)
        red =
      if redName = red then lookupD m red ++ recs else lookupD m red := by
  induction recs generalizing m with
  | nil => by_cases h : redName = red <;> simp [h]
  | cons rc rest ih =>
    rw [List.foldl_cons, ih]
    simp only [lookupD_appendAt]
    by_cases h : redName = red <;> simp [h]

/-- The middle fold of `buildReaderMap` (one route's readers). -/
theorem lookupD_readersFold (readers recs : List String)
    (m : List (String × List String)) (red : String) :
    lookupD
        (readers.foldl
          (fun m' redName =>
            recs.foldl (fun m'' recName => appendAt m'' redName recName) m')
          m)
        red =
      lookupD m red ++ readersContrib red readers recs := by
  induction readers generalizing m with
  | nil => simp [readersContrib]
  | cons rn rest ih =>
    rw [List.foldl_cons, ih, lookupD_recFold]
    by_cases h : rn = red <;>
      simp [readersContrib, h, List.append_assoc]

/-- The outer fold of `buildReaderMap` over the routes. -/
theorem lookupD_routesFold (routes : List (String × Route))
    (m : List (String × List String)) (red : String) :
    lookupD
        (routes.foldl
          (fun m' nr =>
            nr.2.readers.foldl
              (fun m'' redName =>
                nr.2.recorders.foldl
                  (fun m3 recName => appendAt m3 redName recName) m'')
              m')
          m)
        red =
      lookupD m red ++ gatherFor red routes := by
  induction routes generalizing m with
  | nil => simp [gatherFor]
  | cons nr rest ih =>
    rw [List.foldl_cons, ih, lookupD_readersFold]
    simp [gatherFor, routeContrib, List.append_assoc]

/-- The first pass of `mapReadersRecorders` accumulates, per reader name,
exactly the routed recorder names in route order. -/
theorem lookupD_buildReaderMap (routes : List (String × Route))
    (red : String) :
    lookupD (buildReaderMap routes) red = gatherFor red routes := by
  have h := lookupD_routesFold routes [] red
  simpa [buildReaderMap, lookupD] using h

/-- Membership in the de-duplicated list: exactly the members of the
input that were not already seen. -/
theorem mem_dedupFirst (seen l : List String) (x : String) :
    x ∈ dedupFirst seen l ↔ x ∈ l ∧ x ∉ seen := by
  induction l generalizing seen with
  | nil => simp [dedupFirst]
  | cons y ys ih =>
    by_cases hy : y ∈ seen
    · rw [dedupFirst, if_pos hy, ih]
      constructor
      · rintro ⟨hx, hs⟩
        exact ⟨List.mem_cons_of_mem y hx, hs⟩
      · rintro ⟨hx, hs⟩
        rcases List.mem_cons.mp hx with h | h
        · exact absurd (h ▸ hy) hs
        · exact ⟨h, hs⟩
    · rw [dedupFirst, if_neg hy]
      constructor
      · intro hx
        rcases List.mem_cons.mp hx with h | h
        · subst h
          exact ⟨List.mem_cons_self x ys, hy⟩
        · have := (ih (y :: seen)).mp h
          exact ⟨List.mem_cons_of_mem y this.1,
            fun hs => this.2 (List.mem_cons_of_mem y hs)⟩
      · rintro ⟨hx, hs⟩
        rcases List.mem_cons.mp hx with h | h
        · exact h ▸ List.mem_cons_self y (dedupFirst (y :: seen) ys)
        · by_cases hxy : x = y
          · exact hxy ▸ List.mem_cons_self y (dedupFirst (y :: seen) ys)
          · refine List.mem_cons_of_mem y ((ih (y :: seen)).mpr ⟨h, ?_⟩)
            intro hmem
            rcases List.mem_cons.mp hmem with h' | h'
            · exact hxy h'
            · exact hs h'

/-- The de-duplicated list has no duplicates. -/
theorem nodup_dedupFirst (seen l : List String) :
    (dedupFirst seen l).Nodup := by
  induction l generalizing seen with
  | nil => simp [dedupFirst]
  | cons y ys ih =>
    by_cases hy : y ∈ seen
    · rw [dedupFirst, if_pos hy]
      exact ih seen
    · rw [dedupFirst, if_neg hy]
      refine List.Nodup.cons ?_ (ih (y :: seen))
      intro hmem
      exact ((mem_dedupFirst (y :: seen) ys y).mp hmem).2
        (List.mem_cons_self y seen)

/-- Looking up in the cleaned-up table is cleaning up the looked-up
accumulated list. -/
theorem lookupD_map_dedup (m : List (String × List String)) (k : String) :
    lookupD (m.map (fun kv => (kv.1, dedupFirst [] kv.2))) k =
      dedupFirst [] (lookupD m k) := by
  induction m with
  | nil => simp [lookupD, dedupFirst]
  | cons kv rest ih =>
    obtain ⟨k0, vs0⟩ := kv
    by_cases h : k0 = k
    · simp [lookupD, h]
    · simp [lookupD, h, ih]

/-- Membership in one route's contribution: the route must mention the
reader and the recorder. -/
theorem mem_readersContrib (red : String) (readers recs : List String)
    (rec : String) :
    rec ∈ readersContrib red readers recs ↔ red ∈ readers ∧ rec ∈ recs := by
  constructor
  · intro h
    rcases List.mem_flatten.mp h with ⟨l, hl, hrec⟩
    rcases List.mem_map.mp hl with ⟨rn, hrn, hEq⟩
    by_cases hr : rn = red
    · subst hr
      rw [if_pos rfl] at hEq
      exact ⟨hrn, hEq ▸ hrec⟩
    · rw [if_neg hr] at hEq
      exact absurd (hEq ▸ hrec) (List.not_mem_nil rec)
  · rintro ⟨hred, hrec⟩
    refine List.mem_flatten.mpr ⟨recs, ?_, hrec⟩
    refine List.mem_map.mpr ⟨red, hred, ?_⟩
    rw [if_pos rfl]

/-- Membership in the accumulated list: some route routes `rec` to
`red`. -/
theorem mem_gatherFor (red : String) (routes : List (String × Route))
    (rec : String) :
    rec ∈ gatherFor red routes ↔
      ∃ p ∈ routes, red ∈ p.2.readers ∧ rec ∈ p.2.recorders := by
  constructor
  · intro h
    rcases List.mem_flatten.mp h with ⟨l, hl, hrec⟩
    rcases List.mem_map.mp hl with ⟨p, hp, hEq⟩
    rw [← hEq] at hrec
    exact ⟨p, hp,
      (mem_readersContrib red p.2.readers p.2.recorders rec).mp hrec⟩
  · rintro ⟨p, hp, hred, hrec⟩
    refine List.mem_flatten.mpr ⟨routeContrib red p.2, ?_, ?_⟩
    · exact List.mem_map.mpr ⟨p, hp, rfl⟩
    · exact (mem_readersContrib red p.2.readers p.2.recorders rec).mpr
        ⟨hred, hrec⟩

/-- Claim C6: for every route map and reader name, the reader→recorders
table built by `mapReadersRecorders` lists, for that reader, the recorder
names in first-occurrence order of the route-by-route accumulation
(`dedupFirst [] (gatherFor ...)`), contains no duplicates, and contains a
recorder name exactly when some route routes it to that reader. -/
theorem claim_C6_route_table (routes : List (String × Route))
    (red : String) :
    recordersFor routes red = dedupFirst [] (gatherFor red routes)
  ∧ (recordersFor routes red).Nodup
  ∧ ∀ rec, rec ∈ recordersFor routes red ↔
      ∃ p ∈ routes, red ∈ p.2.readers ∧ rec ∈ p.2.recorders := by
  have hmain : recordersFor routes red =
      dedupFirst [] (gatherFor red routes) := by
    unfold recordersFor mapReadersRecorders
    rw [lookupD_map_dedup, lookupD_buildReaderMap]
  refine ⟨hmain, ?_, ?_⟩
  · rw [hmain]
    exact nodup_dedupFirst [] (gatherFor red routes)
  · intro rec
    rw [hmain, mem_dedupFirst]
    simp [mem_gatherFor]

/-- Witness for claim C6 at a concrete route map: two routes both route
reader `app` to recorder `es`, plus one more recorder; the table entry is
`[es, es2]`, duplicate collapsed, in first-occurrence order. -/
theorem claim_C6_route_table_witness :
    recordersFor
      [("route1", { readers := ["app"], recorders := ["es"] }),
       ("route2", { readers := ["app"], recorders := ["es", "es2"] })]
      "app" =
      dedupFirst []
        (gatherFor "app"
          [("route1", { readers := ["app"], recorders := ["es"] }),
           ("route2", { readers := ["app"], recorders := ["es", "es2"] })])
  ∧ (recordersFor
      [("route1", { readers := ["app"], recorders := ["es"] }),
       ("route2", { readers := ["app"], recorders := ["es", "es2"] })]
      "app").Nodup
  ∧ recordersFor
      [("route1", { readers := ["app"], recorders := ["es"] }),
       ("route2", { readers := ["app"], recorders := ["es", "es2"] })]
      "app" = ["es", "es2"] := by
  have h := claim_C6_route_table
    [("route1", { readers := ["app"], recorders := ["es"] }),
     ("route2", { readers := ["app"], recorders := ["es", "es2"] })] "app"
  exact ⟨h.1, h.2.1, by decide⟩

/-- Bind on a successful `Except` runs the continuation. -/
theorem except_bind_ok {ε α β : Type} (a : α) (f : α → Except ε β) :
    (Except.ok a >>= f : Except ε β) = f a := rfl

/-- Bind on a failed `Except` short-circuits. -/
theorem except_bind_error {ε α β : Type} (e : ε) (f : α → Except ε β) :
    (Except.error e >>= f : Except ε β) = .error e := rfl

/-- Every complaint from the cross-check is a `RoutersErr`. -/
theorem check_some_routersErr (routes : List (String × Route))
    (ks cs : List String) (e : ConfErr)
    (h : checkAgainstReadRecorders routes ks cs = some e) :
    ∃ s m, e = ConfErr.routersErr s m := by
  induction routes with
  | nil => simp [checkAgainstReadRecorders] at h
  | cons p rest ih =>
    rw [checkAgainstReadRecorders] at h
    cases h1 : p.2.readers.find? (fun r => !ks.contains r) with
    | some r =>
      rw [h1] at h
      exact ⟨"routers", r ++ " not in readers", (Option.some_inj.mp h).symm⟩
    | none =>
      rw [h1] at h
      cases h2 : p.2.recorders.find? (fun r => !cs.contains r) with
      | some r =>
        rw [h2] at h
        exact ⟨"routers", r ++ " not in recorders",
          (Option.some_inj.mp h).symm⟩
      | none =>
        rw [h2] at h
        exact ih h

/-- When the cross-check is silent, every name used in every route is a
key of its section. -/
theorem check_none_sound (routes : List (String × Route))
    (ks cs : List String)
    (h : checkAgainstReadRecorders routes ks cs = none) :
    ∀ p ∈ routes, (∀ r ∈ p.2.readers, ks.contains r = true)
                ∧ (∀ r ∈ p.2.recorders, cs.contains r = true) := by
  induction routes with
  | nil => simp
  | cons q rest ih =>
    rw [checkAgainstReadRecorders] at h
    cases h1 : q.2.readers.find? (fun r => !ks.contains r) with
    | some r => rw [h1] at h; exact absurd h (by simp)
    | none =>
      rw [h1] at h
      cases h2 : q.2.recorders.find? (fun r => !cs.contains r) with
      | some r => rw [h2] at h; exact absurd h (by simp)
      | none =>
        rw [h2] at h
        intro p hp
        rcases List.mem_cons.mp hp with hq | hrest
        · subst hq
          constructor
          · intro r hr
            have := List.find?_eq_none.mp h1 r hr
            simpa using this
          · intro r hr
            have := List.find?_eq_none.mp h2 r hr
            simpa using this
        · exact ih h p hrest

/-- Membership in the instantiated reader list: the name must be a key,
be used by a route, and its constructor must have succeeded with that
instance. -/
theorem mem_instantiateReaders {α : Type}
    (pr : String → String → Except ConfErr α)
    (routes : List (String × Route)) (keys : List (String × String))
    (l : List (String × α))
    (h : instantiateReaders pr routes keys = .ok l) (name : String) (a : α) :
    (name, a) ∈ l ↔
      ∃ t, (name, t) ∈ keys ∧ readerInRoutes name routes = true ∧
        pr t name = .ok a := by
  induction keys generalizing l with
  | nil =>
    simp only [instantiateReaders, Except.ok.injEq] at h
    subst h
    simp
  | cons kt rest ih =>
    obtain ⟨n0, t0⟩ := kt
    rw [instantiateReaders] at h
    cases hp : pr t0 n0 with
    | error e => rw [hp, except_bind_error] at h; exact absurd h (by simp)
    | ok r0 =>
      rw [hp, except_bind_ok] at h
      cases hr : instantiateReaders pr routes rest with
      | error e => rw [hr, except_bind_error] at h; exact absurd h (by simp)
      | ok tl =>
        rw [hr, except_bind_ok] at h
        by_cases hin : readerInRoutes n0 routes
        · rw [if_pos hin] at h
          simp only [Except.ok.injEq] at h
          subst h
          constructor
          · intro hmem
            rcases List.mem_cons.mp hmem with hhd | htl
            · have hn : name = n0 := congrArg Prod.fst hhd
              have ha : a = r0 := congrArg Prod.snd hhd
              subst hn; subst ha
              exact ⟨t0, List.mem_cons_self _ _, hin, hp⟩
            · rcases (ih tl hr).mp htl with ⟨t, ht, hrt, hok⟩
              exact ⟨t, List.mem_cons_of_mem _ ht, hrt, hok⟩
          · rintro ⟨t, ht, hrt, hok⟩
            rcases List.mem_cons.mp ht with hhd | htl
            · have hn : name = n0 := congrArg Prod.fst hhd
              have htt : t = t0 := congrArg Prod.snd hhd
              subst hn; subst htt
              rw [hp] at hok
              have : r0 = a := by
                simpa using hok
              exact this ▸ List.mem_cons_self _ _
            · exact List.mem_cons_of_mem _
                ((ih tl hr).mpr ⟨t, htl, hrt, hok⟩)
        · rw [if_neg hin] at h
          simp only [Except.ok.injEq] at h
          subst h
          rw [ih _ hr]
          constructor
          · rintro ⟨t, ht, hrt, hok⟩
            exact ⟨t, List.mem_cons_of_mem _ ht, hrt, hok⟩
          · rintro ⟨t, ht, hrt, hok⟩
            rcases List.mem_cons.mp ht with hhd | htl
            · have hn : name = n0 := congrArg Prod.fst hhd
              subst hn
              exact absurd hrt hin
            · exact ⟨t, htl, hrt, hok⟩

/-- A successful instantiation pass parsed every key. -/
theorem instantiateReaders_all_ok {α : Type}
    (pr : String → String → Except ConfErr α)
    (routes : List (String × Route)) (keys : List (String × String))
    (l : List (String × α))
    (h : instantiateReaders pr routes keys = .ok l) :
    ∀ n t, (n, t) ∈ keys → ∃ a, pr t n = .ok a := by
  induction keys generalizing l with
  | nil => simp
  | cons kt rest ih =>
    obtain ⟨n0, t0⟩ := kt
    rw [instantiateReaders] at h
    cases hp : pr t0 n0 with
    | error e => rw [hp, except_bind_error] at h; exact absurd h (by simp)
    | ok r0 =>
      rw [hp, except_bind_ok] at h
      cases hr : instantiateReaders pr routes rest with
      | error e => rw [hr, except_bind_error] at h; exact absurd h (by simp)
      | ok tl =>
        intro n t hmem
        rcases List.mem_cons.mp hmem with hhd | htl
        · have hn : n = n0 := congrArg Prod.fst hhd
          have htt : t = t0 := congrArg Prod.snd hhd
          subst hn; subst htt
          exact ⟨r0, hp⟩
        · exact ih tl hr n t htl

/-- A constructor failure on any key (routed or not) fails the whole
instantiation pass. -/
theorem instantiateReaders_error {α : Type}
    (pr : String → String → Except ConfErr α)
    (routes : List (String × Route)) (keys : List (String × String))
    (n t : String) (e : ConfErr)
    (hmem : (n, t) ∈ keys) (hf : pr t n = .error e) :
    ∃ e', instantiateReaders pr routes keys = .error e' := by
  induction keys with
  | nil => simp at hmem
  | cons kt rest ih =>
    obtain ⟨n0, t0⟩ := kt
    cases hp : pr t0 n0 with
    | error e0 =>
      exact ⟨e0, by rw [instantiateReaders, hp, except_bind_error]⟩
    | ok r0 =>
      rcases List.mem_cons.mp hmem with hhd | htl
      · have hn : n = n0 := congrArg Prod.fst hhd
        have htt : t = t0 := congrArg Prod.snd hhd
        subst hn; subst htt
        rw [hp] at hf
        exact absurd hf (by simp)
      · rcases ih htl with ⟨e', he'⟩
        refine ⟨e', ?_⟩
        rw [instantiateReaders, hp, except_bind_ok, he', except_bind_error]

/-- Recorder-side analogue of `mem_instantiateReaders`. -/
theorem mem_instantiateRecorders {β : Type}
    (rr : String → String → Except ConfErr β)
    (routes : List (String × Route)) (keys : List (String × String))
    (l : List (String × β))
    (h : instantiateRecorders rr routes keys = .ok l) (name : String)
    (b : β) :
    (name, b) ∈ l ↔
      ∃ t, (name, t) ∈ keys ∧ recorderInRoutes name routes = true ∧
        rr t name = .ok b := by
  induction keys generalizing l with
  | nil =>
    simp only [instantiateRecorders, Except.ok.injEq] at h
    subst h
    simp
  | cons kt rest ih =>
    obtain ⟨n0, t0⟩ := kt
    rw [instantiateRecorders] at h
    cases hp : rr t0 n0 with
    | error e => rw [hp, except_bind_error] at h; exact absurd h (by simp)
    | ok r0 =>
      rw [hp, except_bind_ok] at h
      cases hr : instantiateRecorders rr routes rest with
      | error e => rw [hr, except_bind_error] at h; exact absurd h (by simp)
      | ok tl =>
        rw [hr, except_bind_ok] at h
        by_cases hin : recorderInRoutes n0 routes
        · rw [if_pos hin] at h
          simp only [Except.ok.injEq] at h
          subst h
          constructor
          · intro hmem
            rcases List.mem_cons.mp hmem with hhd | htl
            · have hn : name = n0 := congrArg Prod.fst hhd
              have hb : b = r0 := congrArg Prod.snd hhd
              subst hn; subst hb
              exact ⟨t0, List.mem_cons_self _ _, hin, hp⟩
            · rcases (ih tl hr).mp htl with ⟨t, ht, hrt, hok⟩
              exact ⟨t, List.mem_cons_of_mem _ ht, hrt, hok⟩
          · rintro ⟨t, ht, hrt, hok⟩
            rcases List.mem_cons.mp ht with hhd | htl
            · have hn : name = n0 := congrArg Prod.fst hhd
              have htt : t = t0 := congrArg Prod.snd hhd
              subst hn; subst htt
              rw [hp] at hok
              have : r0 = b := by
                simpa using hok
              exact this ▸ List.mem_cons_self _ _
            · exact List.mem_cons_of_mem _
                ((ih tl hr).mpr ⟨t, htl, hrt, hok⟩)
        · rw [if_neg hin] at h
          simp only [Except.ok.injEq] at h
          subst h
          rw [ih _ hr]
          constructor
          · rintro ⟨t, ht, hrt, hok⟩
            exact ⟨t, List.mem_cons_of_mem _ ht, hrt, hok⟩
          · rintro ⟨t, ht, hrt, hok⟩
            rcases List.mem_cons.mp ht with hhd | htl
            · have hn : name = n0 := congrArg Prod.fst hhd
              subst hn
              exact absurd hrt hin
            · exact ⟨t, htl, hrt, hok⟩

/-- Recorder-side analogue of `instantiateReaders_all_ok`. -/
theorem instantiateRecorders_all_ok {β : Type}
    (rr : String → String → Except ConfErr β)
    (routes : List (String × Route)) (keys : List (String × String))
    (l : List (String × β))
    (h : instantiateRecorders rr routes keys = .ok l) :
    ∀ n t, (n, t) ∈ keys → ∃ b, rr t n = .ok b := by
  induction keys generalizing l with
  | nil => simp
  | cons kt rest ih =>
    obtain ⟨n0, t0⟩ := kt
    rw [instantiateRecorders] at h
    cases hp : rr t0 n0 with
    | error e => rw [hp, except_bind_error] at h; exact absurd h (by simp)
    | ok r0 =>
      rw [hp, except_bind_ok] at h
      cases hr : instantiateRecorders rr routes rest with
      | error e => rw [hr, except_bind_error] at h; exact absurd h (by simp)
      | ok tl =>
        intro n t hmem
        rcases List.mem_cons.mp hmem with hhd | htl
        · have hn : n = n0 := congrArg Prod.fst hhd
          have htt : t = t0 := congrArg Prod.snd hhd
          subst hn; subst htt
          exact ⟨r0, hp⟩
        · exact ih tl hr n t htl

/-- Recorder-side analogue of `instantiateReaders_error`. -/
theorem instantiateRecorders_error {β : Type}
    (rr : String → String → Except ConfErr β)
    (routes : List (String × Route)) (keys : List (String × String))
    (n t : String) (e : ConfErr)
    (hmem : (n, t) ∈ keys) (hf : rr t n = .error e) :
    ∃ e', instantiateRecorders rr routes keys = .error e' := by
  induction keys with
  | nil => simp at hmem
  | cons kt rest ih =>
    obtain ⟨n0, t0⟩ := kt
    cases hp : rr t0 n0 with
    | error e0 =>
      exact ⟨e0, by rw [instantiateRecorders, hp, except_bind_error]⟩
    | ok r0 =>
      rcases List.mem_cons.mp hmem with hhd | htl
      · have hn : n = n0 := congrArg Prod.fst hhd
        have htt : t = t0 := congrArg Prod.snd hhd
        subst hn; subst htt
        rw [hp] at hf
        exact absurd hf (by simp)
      · rcases ih htl with ⟨e', he'⟩
        refine ⟨e', ?_⟩
        rw [instantiateRecorders, hp, except_bind_ok, he', except_bind_error]

/-- An empty configuration aborts the load at once. -/
theorem LoadYAML_emptyConfig {α β : Type}
    (pr : String → String → Except ConfErr α)
    (rr : String → String → Except ConfErr β) (c : RawConfig)
    (h : c.allSettingsEmpty = true) :
    LoadYAML pr rr c = .error .emptyConfig := by
  simp [LoadYAML, h]

/-- A non-string `settings.log_level` aborts the load. -/
theorem LoadYAML_badSettings {α β : Type}
    (pr : String → String → Except ConfErr α)
    (rr : String → String → Except ConfErr β) (c : RawConfig)
    (h1 : c.allSettingsEmpty = false)
    (h2 : c.settingsPresent ∧ c.logLevelSet ∧ ¬c.logLevelIsString) :
    LoadYAML pr rr c = .error (.structureErr "settings" "") := by
  simp [LoadYAML, h1, h2]

/-- With all sections parsed and the settings checks passed, `LoadYAML`
reduces to the route cross-check followed by `loadConfiguration`. -/
theorem LoadYAML_reduce {α β : Type}
    (pr : String → String → Except ConfErr α)
    (rr : String → String → Except ConfErr β) (c : RawConfig)
    (readerKeys recorderKeys : List (String × String))
    (routes : List (String × Route))
    (hre : getReaders c = .ok readerKeys)
    (hrc : getRecorders c = .ok recorderKeys)
    (hro : getRoutes c = .ok routes)
    (hempty : c.allSettingsEmpty = false)
    (hset : ¬(c.settingsPresent ∧ c.logLevelSet ∧ ¬c.logLevelIsString)) :
    LoadYAML pr rr c =
      match checkAgainstReadRecorders routes (readerKeys.map Prod.fst)
          (recorderKeys.map Prod.fst) with
      | some e => .error e
      | none => loadConfiguration pr rr routes readerKeys recorderKeys := by
  simp only [LoadYAML, hempty, Bool.false_eq_true, if_false, if_neg hset,
    hre, hrc, hro, except_bind_ok]

/-- Claim C9: when the sections parse but some route names a reader or
recorder that is not a key of the corresponding section, `LoadYAML` fails
with a `RoutersErr` and produces no configuration map. -/
theorem claim_C9_unknown_route_name {α β : Type}
    (pr : String → String → Except ConfErr α)
    (rr : String → String → Except ConfErr β) (c : RawConfig)
    (readerKeys recorderKeys : List (String × String))
    (routes : List (String × Route))
    (hre : getReaders c = .ok readerKeys)
    (hrc : getRecorders c = .ok recorderKeys)
    (hro : getRoutes c = .ok routes)
    (hempty : c.allSettingsEmpty = false)
    (hset : ¬(c.settingsPresent ∧ c.logLevelSet ∧ ¬c.logLevelIsString))
    (hbad : ∃ p ∈ routes,
        (∃ r ∈ p.2.readers,
            (readerKeys.map Prod.fst).contains r = false)
      ∨ (∃ r ∈ p.2.recorders,
            (recorderKeys.map Prod.fst).contains r = false)) :
    ∃ s m, LoadYAML pr rr c = .error (.routersErr s m) := by
  cases hc : checkAgainstReadRecorders routes (readerKeys.map Prod.fst)
      (recorderKeys.map Prod.fst) with
  | none =>
    exfalso
    rcases hbad with ⟨p, hp, hb⟩
    have hall := check_none_sound _ _ _ hc p hp
    rcases hb with ⟨r, hr, hcon⟩ | ⟨r, hr, hcon⟩
    · rw [hall.1 r hr] at hcon
      exact Bool.noConfusion hcon
    · rw [hall.2 r hr] at hcon
      exact Bool.noConfusion hcon
  | some e =>
    rcases check_some_routersErr _ _ _ e hc with ⟨s, m, hE⟩
    refine ⟨s, m, ?_⟩
    rw [LoadYAML_reduce pr rr c readerKeys recorderKeys routes hre hrc hro
      hempty hset, hc, hE]

/-- Reader/recorder constructors that always succeed (the construction
work itself is outside the loader). -/
def okPR : String → String → Except ConfErr Unit := fun _ _ => .ok ()

/-- A configuration whose only route names the undefined reader
`ghost`. -/
def c9Config : RawConfig :=
  { allSettingsEmpty := false, settingsPresent := false, logLevelSet := false,
    logLevelIsString := true,
    readersSection := some [("app", "expvar")],
    recordersSection := some [("es", "elasticsearch")],
    routesSection :=
      some [("route1", [("readers", ["ghost"]), ("recorders", ["es"])])] }

/-- Witness for claim C9 at `c9Config`: the load fails with a
`RoutersErr`. -/
theorem claim_C9_unknown_route_name_witness :
    ∃ s m, LoadYAML okPR okPR c9Config = .error (.routersErr s m) :=
  claim_C9_unknown_route_name okPR okPR c9Config
    [("app", "expvar")] [("es", "elasticsearch")]
    [("route1", { readers := ["ghost"], recorders := ["es"] })]
    (by rfl) (by rfl) (by rfl) (by rfl) (by decide)
    ⟨("route1", { readers := ["ghost"], recorders := ["es"] }),
      by decide, Or.inl ⟨"ghost", by decide, by decide⟩⟩

/-- Claim C10: once the loader accepts a configuration, the result holds
an instantiated reader (resp. recorder) for a name exactly when some
route references that name; yet every section entry is parsed, so a
constructor failure on a name no route references still fails the whole
load. -/
theorem claim_C10_routed_only {α β : Type}
    (pr : String → String → Except ConfErr α)
    (rr : String → String → Except ConfErr β) (c : RawConfig)
    (cm : ConfMap α β)
    (readerKeys recorderKeys : List (String × String))
    (routes : List (String × Route))
    (hre : getReaders c = .ok readerKeys)
    (hrc : getRecorders c = .ok recorderKeys)
    (hro : getRoutes c = .ok routes) :
    (LoadYAML pr rr c = .ok cm →
       (∀ name, (∃ a, (name, a) ∈ cm.readers) ↔
          readerInRoutes name routes = true)
     ∧ (∀ name, (∃ b, (name, b) ∈ cm.recorders) ↔
          recorderInRoutes name routes = true))
  ∧ (∀ name t e, (name, t) ∈ readerKeys → pr t name = .error e →
       ∃ e', LoadYAML pr rr c = .error e')
  ∧ (∀ name t e, (name, t) ∈ recorderKeys → rr t name = .error e →
       ∃ e', LoadYAML pr rr c = .error e') := by
  refine ⟨?_, ?_, ?_⟩
  · intro hok
    cases hAe : c.allSettingsEmpty with
    | true =>
      rw [LoadYAML_emptyConfig pr rr c hAe] at hok
      exact absurd hok (by simp)
    | false =>
      by_cases hset : c.settingsPresent ∧ c.logLevelSet ∧ ¬c.logLevelIsString
      · rw [LoadYAML_badSettings pr rr c hAe hset] at hok
        exact absurd hok (by simp)
      · rw [LoadYAML_reduce pr rr c readerKeys recorderKeys routes hre hrc
          hro hAe hset] at hok
        cases hc : checkAgainstReadRecorders routes (readerKeys.map Prod.fst)
            (recorderKeys.map Prod.fst) with
        | some e =>
          rw [hc] at hok
          exact absurd hok (by simp)
        | none =>
          rw [hc] at hok
          rw [loadConfiguration] at hok
          cases hlr : instantiateReaders pr routes readerKeys with
          | error e =>
            rw [hlr, except_bind_error] at hok
            exact absurd hok (by simp)
          | ok lr =>
            rw [hlr, except_bind_ok] at hok
            cases hlc : instantiateRecorders rr routes recorderKeys with
            | error e =>
              rw [hlc, except_bind_error] at hok
              exact absurd hok (by simp)
            | ok lc =>
              rw [hlc, except_bind_ok] at hok
              simp only [pure, Except.pure, Except.ok.injEq] at hok
              subst hok
              constructor
              · intro name
                constructor
                · rintro ⟨a, ha⟩
                  exact ((mem_instantiateReaders pr routes readerKeys lr hlr
                    name a).mp ha).choose_spec.2.1
                · intro hin
                  rcases List.any_eq_true.mp hin with ⟨p, hp, hcmem⟩
                  have hnmem : name ∈ p.2.readers := by simpa using hcmem
                  have hkey : (readerKeys.map Prod.fst).contains name = true :=
                    (check_none_sound _ _ _ hc p hp).1 name hnmem
                  have hmemk : name ∈ readerKeys.map Prod.fst := by
                    simpa using hkey
                  rcases List.mem_map.mp hmemk with ⟨q, hq, hEq⟩
                  have hqmem : (name, q.2) ∈ readerKeys := by
                    rw [← hEq, Prod.mk.eta]
                    exact hq
                  rcases instantiateReaders_all_ok pr routes readerKeys lr
                    hlr name q.2 hqmem with ⟨a, hap⟩
                  exact ⟨a, (mem_instantiateReaders pr routes readerKeys lr
                    hlr name a).mpr ⟨q.2, hqmem, hin, hap⟩⟩
              · intro name
                constructor
                · rintro ⟨b, hb⟩
                  exact ((mem_instantiateRecorders rr routes recorderKeys lc
                    hlc name b).mp hb).choose_spec.2.1
                · intro hin
                  rcases List.any_eq_true.mp hin with ⟨p, hp, hcmem⟩
                  have hnmem : name ∈ p.2.recorders := by simpa using hcmem
                  have hkey :
                      (recorderKeys.map Prod.fst).contains name = true :=
                    (check_none_sound _ _ _ hc p hp).2 name hnmem
                  have hmemk : name ∈ recorderKeys.map Prod.fst := by
                    simpa using hkey
                  rcases List.mem_map.mp hmemk with ⟨q, hq, hEq⟩
                  have hqmem : (name, q.2) ∈ recorderKeys := by
                    rw [← hEq, Prod.mk.eta]
                    exact hq
                  rcases instantiateRecorders_all_ok rr routes recorderKeys lc
                    hlc name q.2 hqmem with ⟨b, hbp⟩
                  exact ⟨b, (mem_instantiateRecorders rr routes recorderKeys lc
                    hlc name b).mpr ⟨q.2, hqmem, hin, hbp⟩⟩
  · intro name t e hmem hf
    cases hAe : c.allSettingsEmpty with
    | true => exact ⟨.emptyConfig, LoadYAML_emptyConfig pr rr c hAe⟩
    | false =>
      by_cases hset : c.settingsPresent ∧ c.logLevelSet ∧ ¬c.logLevelIsString
      · exact ⟨.structureErr "settings" "",
          LoadYAML_badSettings pr rr c hAe hset⟩
      · rw [LoadYAML_reduce pr rr c readerKeys recorderKeys routes hre hrc
          hro hAe hset]
        cases hc : checkAgainstReadRecorders routes (readerKeys.map Prod.fst)
            (recorderKeys.map Prod.fst) with
        | some e0 => exact ⟨e0, rfl⟩
        | none =>
          rcases instantiateReaders_error pr routes readerKeys name t e hmem
            hf with ⟨e', he'⟩
          refine ⟨e', ?_⟩
          rw [loadConfiguration, he', except_bind_error]
  · intro name t e hmem hf
    cases hAe : c.allSettingsEmpty with
    | true => exact ⟨.emptyConfig, LoadYAML_emptyConfig pr rr c hAe⟩
    | false =>
      by_cases hset : c.settingsPresent ∧ c.logLevelSet ∧ ¬c.logLevelIsString
      · exact ⟨.structureErr "settings" "",
          LoadYAML_badSettings pr rr c hAe hset⟩
      · rw [LoadYAML_reduce pr rr c readerKeys recorderKeys routes hre hrc
          hro hAe hset]
        cases hc : checkAgainstReadRecorders routes (readerKeys.map Prod.fst)
            (recorderKeys.map Prod.fst) with
        | some e0 => exact ⟨e0, rfl⟩
        | none =>
          cases hlr : instantiateReaders pr routes readerKeys with
          | error e0 =>
            exact ⟨e0, by rw [loadConfiguration, hlr, except_bind_error]⟩
          | ok lr =>
            rcases instantiateRecorders_error rr routes recorderKeys name t e
              hmem hf with ⟨e', he'⟩
            refine ⟨e', ?_⟩
            rw [loadConfiguration, hlr, except_bind_ok, he', except_bind_error]

/-- A configuration with a reader entry (`unused`) that no route
references. -/
def c10Config : RawConfig :=
  { allSettingsEmpty := false, settingsPresent := false, logLevelSet := false,
    logLevelIsString := true,
    readersSection := some [("app", "expvar"), ("unused", "expvar")],
    recordersSection := some [("es", "elasticsearch")],
    routesSection :=
      some [("route1", [("readers", ["app"]), ("recorders", ["es"])])] }

/-- A reader constructor that fails on the unreferenced entry. -/
def failUnusedPR : String → String → Except ConfErr Unit :=
  fun _ name =>
    if name = "unused" then .error (.notSupported "expvar") else .ok ()

/-- Witness for claim C10: a constructor failure on the route-less reader
`unused` still fails the whole load of `c10Config`. -/
theorem claim_C10_routed_only_witness :
    ∃ e', LoadYAML failUnusedPR okPR c10Config = .error e' :=
  (claim_C10_routed_only failUnusedPR okPR c10Config
      { readers := [], recorders := [], routes := [] }
      [("app", "expvar"), ("unused", "expvar")] [("es", "elasticsearch")]
      [("route1", { readers := ["app"], recorders := ["es"] })]
      (by rfl) (by rfl) (by rfl)).2.1
    "unused" "expvar" (.notSupported "expvar") (by decide) (by rfl)
